import Mathlib

/-!
Verification of the task-manager scheduling service.

This file gives a shallow embedding of the task lifecycle layer of the
repository (`src/services.py`, `src/models.py`, and the `notify` coroutine of
`src/app.py`) and proves or refutes the specified properties about it.

Modelling conventions:
* Instants (`datetime.datetime`) are natural numbers (seconds).
* The SQLAlchemy session-per-call discipline is modelled by pure state
  passing: an operation that raises before `session.commit()` leaves the
  state unchanged, because uncommitted session mutations are discarded.
* The APScheduler job store is a list of `Job` values; `add_job` with
  `replace_existing=True`, `remove_job` and `get_job` are modelled directly.
* `CronTrigger.from_crontab(expr, timezone)` is a third-party call; the
  embedding is parameterised by a validity oracle
  `vc : String → String → Bool` (expression, timezone); when it returns
  `false` the trigger constructor raises.
* Python's `TaskStatus(value)` / `TaskPriority(value)` enum lookup is by
  member *value* and raises `ValueError` on anything else; the enum values
  are the lowercase strings of `models.py`.
* `update_data` dictionaries are lists of tagged entries (`Upd`), one
  constructor per `Task` attribute that any call site names, plus `Upd.other`
  for keys that are not attributes of `Task` (the `hasattr` guard skips
  those).  Python dict keys are unique, captured by `UpdWF`.
-/

namespace TaskManager

/-- `models.TaskStatus` (values "pending", "completed", "snoozed"). -/
inductive TaskStatus where
  | pending
  | completed
  | snoozed
deriving DecidableEq, Repr

/-- `models.TaskPriority` (values "low", "medium", "high"). -/
inductive TaskPriority where
  | low
  | medium
  | high
deriving DecidableEq, Repr

/-- Python `TaskStatus(value)`: lookup by enum value, `ValueError` otherwise
(modelled as `none`).  The lookup is case sensitive. -/
def parseStatus : String → Option TaskStatus
  | "pending" => some TaskStatus.pending
  | "completed" => some TaskStatus.completed
  | "snoozed" => some TaskStatus.snoozed
  | _ => none

/-- Python `TaskPriority(value)`. -/
def parsePriority : String → Option TaskPriority
  | "low" => some TaskPriority.low
  | "medium" => some TaskPriority.medium
  | "high" => some TaskPriority.high
  | _ => none

/-- The `.value` attribute of a `TaskStatus` member. -/
def statusValue : TaskStatus → String
  | TaskStatus.pending => "pending"
  | TaskStatus.completed => "completed"
  | TaskStatus.snoozed => "snoozed"

/-- A row of the `tasks` table (`models.Task`). -/
structure Task where
  id : String
  title : String
  description : String
  topic : String
  body : String
  cron_expression : String
  priority : TaskPriority
  status : TaskStatus
  category_id : Option Nat
  created_at : Nat
  modified_at : Nat
  completed_at : Option Nat
  snoozed_until : Option Nat
  timezone : String
  tags : List String
  attachments : Option String
  notes : Option String
  notification_channels : List (String × Bool)
  notification_sound : Option String
  run_count : Nat
  last_run : Option Nat
deriving DecidableEq, Repr

/-- An APScheduler job as created by `TaskService`: id, display name, the
`args` tuple `(topic, title, body, task_id)` and the trigger data. -/
structure Job where
  id : String
  name : String
  topic : String
  title : String
  body : String
  task_id : String
  cron : String
  timezone : String
deriving DecidableEq, Repr

/-- The JSON `details` payload of a `TaskHistory` row. -/
inductive HistDetails where
  | statusChange (oldValue newValue : String)
  | runCount (n : Nat)
deriving DecidableEq, Repr

/-- A row of the `task_history` table (`models.TaskHistory`). -/
structure HistoryEntry where
  task_id : String
  status : String
  timestamp : Nat
  details : HistDetails
deriving DecidableEq, Repr

/-- The shared state: the `tasks` table, the scheduler's job store and the
`task_history` table. -/
structure AppState where
  tasks : List Task
  jobs : List Job
  history : List HistoryEntry
deriving DecidableEq, Repr

/-- `session.query(Task).filter(Task.id == task_id).first()`. -/
def getTask (s : AppState) (tid : String) : Option Task :=
  s.tasks.find? (fun t => t.id == tid)

/-- `scheduler.get_job(task_id)`. -/
def getJob (jobs : List Job) (tid : String) : Option Job :=
  jobs.find? (fun j => j.id == tid)

/-- `scheduler.remove_job(task_id)` (the guarded call sites only invoke it
when the job exists, so the absent case never raises here). -/
def removeJob (jobs : List Job) (tid : String) : List Job :=
  jobs.filter (fun j => !(j.id == tid))

/-- `scheduler.add_job(..., id=task_id, replace_existing=True)`. -/
def addJobReplace (jobs : List Job) (j : Job) : List Job :=
  if jobs.any (fun j0 => j0.id == j.id) then
    jobs.map (fun j0 => if j0.id == j.id then j else j0)
  else jobs ++ [j]

/-- Committing a mutated session task back into the table. -/
def replaceTask (tasks : List Task) (tid : String) (t2 : Task) : List Task :=
  tasks.map (fun t => if t.id == tid then t2 else t)

/-- The job `TaskService` registers for a task: `name=title`,
`args=(topic, title, body, task_id)`, trigger from `cron_expression` and
`timezone`. -/
def mkJob (tid : String) (t : Task) : Job :=
  { id := tid, name := t.title, topic := t.topic, title := t.title,
    body := t.body, task_id := tid, cron := t.cron_expression,
    timezone := t.timezone }

/-- One entry of an `update_data` dictionary.  Each constructor is a key that
is an attribute of `Task`; `other k` is a key `k` that is not an attribute of
`Task` (skipped by the `hasattr` guard). -/
inductive Upd where
  | title (v : String)
  | description (v : String)
  | topic (v : String)
  | body (v : String)
  | cron_expression (v : String)
  | priority (v : String)
  | status (v : String)
  | snoozed_until (v : Option Nat)
  | completed_at (v : Option Nat)
  | timezone (v : String)
  | tags (v : List String)
  | attachments (v : Option String)
  | notes (v : String)
  | notification_sound (v : Option String)
  | category_id (v : Option Nat)
  | other (k : String)
deriving DecidableEq, Repr

/-- The dictionary key of an entry. -/
def Upd.key : Upd → String
  | Upd.title _ => "title"
  | Upd.description _ => "description"
  | Upd.topic _ => "topic"
  | Upd.body _ => "body"
  | Upd.cron_expression _ => "cron_expression"
  | Upd.priority _ => "priority"
  | Upd.status _ => "status"
  | Upd.snoozed_until _ => "snoozed_until"
  | Upd.completed_at _ => "completed_at"
  | Upd.timezone _ => "timezone"
  | Upd.tags _ => "tags"
  | Upd.attachments _ => "attachments"
  | Upd.notes _ => "notes"
  | Upd.notification_sound _ => "notification_sound"
  | Upd.category_id _ => "category_id"
  | Upd.other k => k

/-- Whether an entry is a key that is not an attribute of `Task`. -/
def Upd.isOther : Upd → Bool
  | Upd.other _ => true
  | _ => false

/-- The attribute names of `models.Task` that update dictionaries may name. -/
def taskAttrNames : List String :=
  ["id", "title", "description", "topic", "body", "cron_expression",
   "priority", "status", "category_id", "created_at", "modified_at",
   "completed_at", "snoozed_until", "timezone", "tags", "attachments",
   "notes", "notification_channels", "notification_sound", "run_count",
   "last_run", "category"]

/-- Entry sanity: an `other` entry really is a non-attribute key. -/
def updOk : Upd → Bool
  | Upd.other k => !(taskAttrNames.contains k)
  | _ => true

/-- Well-formedness of an `update_data` dictionary: keys are unique (it is a
Python dict) and `other` entries carry non-attribute keys. -/
def UpdWF (us : List Upd) : Prop :=
  (us.map Upd.key).Nodup ∧ ∀ u ∈ us, updOk u = true

instance (us : List Upd) : Decidable (UpdWF us) := by
  unfold UpdWF; infer_instance

/-- `'k' in update_data`. -/
def hasKey (us : List Upd) (k : String) : Bool :=
  us.any (fun u => u.key == k)

/-- `update_data['snoozed_until']` (first entry with that key; dict keys are
unique). -/
def dictSnoozedUntil : List Upd → Option (Option Nat)
  | [] => none
  | Upd.snoozed_until v :: _ => some v
  | _ :: rest => dictSnoozedUntil rest

/-- The history row appended on a status transition. -/
def histStatusChange (tid : String) (now : Nat) (o n : TaskStatus) :
    HistoryEntry :=
  { task_id := tid,
    status := "Status changed from " ++ statusValue o ++ " to " ++
      statusValue n,
    timestamp := now,
    details := HistDetails.statusChange (statusValue o) (statusValue n) }

/-- One iteration of the `for key, value in update_data.items()` loop of
`TaskService.update_task` (`src/services.py` lines 127-152).  `hasSU` and
`dictSU` are `'snoozed_until' in update_data` and
`update_data['snoozed_until']`, the two reads of the whole dictionary made
by the status-transition branch (the dictionary itself never changes during
the loop).  A `ValueError` from the enum lookups is `Except.error`. -/
def applyUpd (now : Nat) (hasSU : Bool) (dictSU : Option (Option Nat))
    (tid : String) (acc : Task × List HistoryEntry) :
    Upd → Except String (Task × List HistoryEntry)
  | Upd.title v => Except.ok ({ acc.1 with title := v }, acc.2)
  | Upd.description v => Except.ok ({ acc.1 with description := v }, acc.2)
  | Upd.topic v => Except.ok ({ acc.1 with topic := v }, acc.2)
  | Upd.body v => Except.ok ({ acc.1 with body := v }, acc.2)
  | Upd.cron_expression v =>
      Except.ok ({ acc.1 with cron_expression := v }, acc.2)
  | Upd.priority v =>
      match parsePriority v with
      | some p => Except.ok ({ acc.1 with priority := p }, acc.2)
      | none => Except.error "ValueError: not a valid TaskPriority"
  | Upd.status v =>
      match parseStatus v with
      | none => Except.error "ValueError: not a valid TaskStatus"
      | some ns =>
          let o := acc.1.status
          let t1 := { acc.1 with status := ns }
          if o = ns then Except.ok (t1, acc.2)
          else
            let t2 :=
              if ns = TaskStatus.completed then
                { t1 with completed_at := some now }
              else if ns = TaskStatus.snoozed then
                if hasSU then
                  match dictSU with
                  | some v => { t1 with snoozed_until := v }
                  | none => t1
                else t1
              else t1
            Except.ok (t2, acc.2 ++ [histStatusChange tid now o ns])
  | Upd.snoozed_until v => Except.ok ({ acc.1 with snoozed_until := v }, acc.2)
  | Upd.completed_at v => Except.ok ({ acc.1 with completed_at := v }, acc.2)
  | Upd.timezone v => Except.ok ({ acc.1 with timezone := v }, acc.2)
  | Upd.tags v => Except.ok ({ acc.1 with tags := v }, acc.2)
  | Upd.attachments v => Except.ok ({ acc.1 with attachments := v }, acc.2)
  | Upd.notes v => Except.ok ({ acc.1 with notes := v }, acc.2)
  | Upd.notification_sound v =>
      Except.ok ({ acc.1 with notification_sound := v }, acc.2)
  | Upd.category_id v => Except.ok ({ acc.1 with category_id := v }, acc.2)
  | Upd.other _ => Except.ok acc

/-- The outcome of a service call: the post-state and either the raised
exception, or the Python return value (`none` when the task was not found). -/
structure UpdOut where
  state : AppState
  result : Except String (Option Task)
deriving Repr

/-- Whether the call returned normally. -/
def isOkResult (o : UpdOut) : Bool :=
  match o.result with
  | Except.ok _ => true
  | Except.error _ => false

/-- The `reschedule_keys` set of `TaskService.update_task`. -/
def rescheduleKeys : List String :=
  ["cron_expression", "timezone", "status", "snoozed_until"]

/-- `TaskService.update_task` (`src/services.py` lines 117-188).
`vc` is the `CronTrigger.from_crontab` validity oracle and `ng` records
whether a `notify_function` was passed (`None` ⇒ `false`). -/
def update_task (vc : String → String → Bool) (s : AppState) (now : Nat)
    (tid : String) (us : List Upd) (ng : Bool) : UpdOut :=
  match getTask s tid with
  | none => { state := s, result := Except.ok none }
  | some task =>
    match us.foldlM
        (applyUpd now (hasKey us "snoozed_until") (dictSnoozedUntil us) tid)
        (task, ([] : List HistoryEntry)) with
    | Except.error e => { state := s, result := Except.error e }
    | Except.ok (t1, hs) =>
      let t2 := { t1 with modified_at := now }
      let jobs1 :=
        if us.any (fun u => rescheduleKeys.contains u.key) && ng then
          let removed :=
            match getJob s.jobs tid with
            | some _ => removeJob s.jobs tid
            | none => s.jobs
          if t2.status = TaskStatus.pending then
            if vc t2.cron_expression t2.timezone then
              addJobReplace removed (mkJob tid t2)
            else removed
          else removed
        else s.jobs
      { state := { tasks := replaceTask s.tasks tid t2, jobs := jobs1,
                   history := s.history ++ hs },
        result := Except.ok (some t2) }

/-- `TaskService.complete_task` (`src/services.py` lines 215-220): an
`update_task` call with `{'status': 'COMPLETED', 'completed_at': now}` and no
`notify_function`. -/
def complete_task (vc : String → String → Bool) (s : AppState) (now : Nat)
    (tid : String) : UpdOut :=
  update_task vc s now tid
    [Upd.status "COMPLETED", Upd.completed_at (some now)] false

/-- `TaskService.snooze_task` (`src/services.py` lines 222-228): an
`update_task` call with `{'status': 'SNOOZED', 'snoozed_until': now + h}` and
no `notify_function`.  Durations are in hours (3600 s). -/
def snooze_task (vc : String → String → Bool) (s : AppState) (now : Nat)
    (tid : String) (durationHours : Nat) : UpdOut :=
  update_task vc s now tid
    [Upd.status "SNOOZED", Upd.snoozed_until (some (now + durationHours * 3600))]
    false

/-- `TaskService.reactivate_task` (`src/services.py` lines 230-235): an
`update_task` call with `{'status': 'PENDING', 'snoozed_until': None}` and no
`notify_function`. -/
def reactivate_task (vc : String → String → Bool) (s : AppState) (now : Nat)
    (tid : String) : UpdOut :=
  update_task vc s now tid [Upd.status "PENDING", Upd.snoozed_until none] false

/-- The keyword arguments of `TaskService.create_task`.  `task_id` is the
generated `uuid.uuid4()`; `notifyGiven` records whether `notify_function` was
passed. -/
structure CreateArgs where
  task_id : String
  title : String
  topic : String
  body : String
  cron_expression : String
  description : Option String
  priority : String
  category_id : Option Nat
  notification_channels : Option (List (String × Bool))
  notification_sound : Option String
  timezone : String
  attachments : Option String
  tags : List String
  notifyGiven : Bool
deriving Repr

/-- The `Task` record built by `TaskService.create_task`. -/
def newTask (now : Nat) (a : CreateArgs) (p : TaskPriority) : Task :=
  { id := a.task_id, title := a.title,
    description := a.description.getD "",
    topic := a.topic, body := a.body,
    cron_expression := a.cron_expression,
    priority := p, status := TaskStatus.pending,
    category_id := a.category_id,
    created_at := now, modified_at := now,
    completed_at := none, snoozed_until := none,
    timezone := a.timezone, tags := a.tags,
    attachments := a.attachments, notes := none,
    notification_channels := a.notification_channels.getD [("ntfy", true)],
    notification_sound := a.notification_sound,
    run_count := 0, last_run := none }

/-- `TaskService.create_task` (`src/services.py` lines 58-115).  The record
is committed first; if the trigger construction or `add_job` raises, the
record is deleted again and the exception is re-raised as an
`HTTPException(400)`, so the net post-state of the failure branch is the
input state. -/
def create_task (vc : String → String → Bool) (s : AppState) (now : Nat)
    (a : CreateArgs) : UpdOut :=
  if !a.notifyGiven then
    { state := s, result := Except.error "ValueError: Notify function must be provided" }
  else
    match parsePriority a.priority with
    | none =>
        { state := s, result := Except.error "ValueError: not a valid TaskPriority" }
    | some p =>
        let task := newTask now a p
        if vc a.cron_expression a.timezone then
          { state := { tasks := s.tasks ++ [task],
                       jobs := addJobReplace s.jobs (mkJob a.task_id task),
                       history := s.history },
            result := Except.ok (some task) }
        else
          { state := s, result := Except.error "HTTPException 400: invalid cron expression" }

/-- `TaskService.delete_task` (`src/services.py` lines 190-213): delete the
row, cascade the history rows, remove the job if present; `false` when the
task does not exist. -/
def delete_task (s : AppState) (tid : String) : AppState × Bool :=
  match getTask s tid with
  | none => (s, false)
  | some _ =>
    ({ tasks := s.tasks.filter (fun t => !(t.id == tid)),
       jobs := removeJob s.jobs tid,
       history := s.history.filter (fun h => !(h.task_id == tid)) }, true)

/-- `TaskService.record_execution` (`src/services.py` lines 237-257). -/
def record_execution (s : AppState) (now : Nat) (tid : String) : AppState :=
  match getTask s tid with
  | none => s
  | some t =>
    let t2 := { t with run_count := t.run_count + 1, last_run := some now }
    { tasks := replaceTask s.tasks tid t2,
      jobs := s.jobs,
      history := s.history ++
        [{ task_id := tid, status := "executed", timestamp := now,
           details := HistDetails.runCount t2.run_count }] }

/-- The `notify` coroutine of `src/app.py` (lines 34-45): the HTTP post plus
`raise_for_status()` is modelled by the boolean `dispatchOk`; a failed
dispatch raises before `record_execution` runs. -/
def notify (s : AppState) (now : Nat) (dispatchOk : Bool)
    (topic title body : String) (task_id : Option String) :
    AppState × Except String Unit :=
  if dispatchOk then
    match task_id with
    | some tid => (record_execution s now tid, Except.ok ())
    | none => (s, Except.ok ())
  else (s, Except.error "HTTPStatusError")

/-- Number of jobs registered under a given id. -/
def countJobs (jobs : List Job) (tid : String) : Nat :=
  jobs.countP (fun j => j.id == tid)

/-- The task/job join invariant of the spec: a task is Pending iff exactly
one scheduler job with its id exists. -/
def joinInv (s : AppState) : Prop :=
  ∀ t ∈ s.tasks,
    (t.status = TaskStatus.pending ↔ countJobs s.jobs t.id = 1)

instance (s : AppState) : Decidable (joinInv s) := by
  unfold joinInv; infer_instance

/-- The nullable-field state invariant of the spec: Snoozed tasks carry a
`snoozed_until`, Completed tasks carry a `completed_at`. -/
def stateInv (s : AppState) : Prop :=
  ∀ t ∈ s.tasks,
    (t.status = TaskStatus.snoozed → t.snoozed_until ≠ none) ∧
    (t.status = TaskStatus.completed → t.completed_at ≠ none)

instance (s : AppState) : Decidable (stateInv s) := by
  unfold stateInv; infer_instance

/-- A concrete cron validity oracle for concrete scenarios: only the
every-minute expression is accepted. -/
def cronOk : String → String → Bool := fun c _ => c == "* * * * *"

/-- A concrete pending task used in concrete scenarios. -/
def task0 : Task :=
  { id := "a", title := "water plants", description := "", topic := "tp",
    body := "do it", cron_expression := "* * * * *",
    priority := TaskPriority.medium, status := TaskStatus.pending,
    category_id := none, created_at := 0, modified_at := 0,
    completed_at := none, snoozed_until := none, timezone := "UTC",
    tags := [], attachments := none, notes := none,
    notification_channels := [("ntfy", true)], notification_sound := none,
    run_count := 0, last_run := none }

/-- The scheduler job of `task0`. -/
def job0 : Job := mkJob "a" task0

/-- A concrete state: one pending task with its job, empty history. -/
def state0 : AppState := { tasks := [task0], jobs := [job0], history := [] }

/-- Concrete `create_task` arguments with a fresh id. -/
def args0 : CreateArgs :=
  { task_id := "b", title := "second", topic := "tp2", body := "b2",
    cron_expression := "* * * * *", description := none, priority := "medium",
    category_id := none, notification_channels := none,
    notification_sound := none, timezone := "UTC", attachments := none,
    tags := [], notifyGiven := true }

/-- A concrete snoozed task (for scenarios that start from a snoozed task). -/
def task0S : Task :=
  { task0 with status := TaskStatus.snoozed, snoozed_until := some 50 }

/-- A concrete state holding only the snoozed task (no job). -/
def state0S : AppState := { tasks := [task0S], jobs := [], history := [] }

/-! ### Shared lemmas -/

/-- `complete_task` never changes the state: for a missing task it returns
`None`, and for an existing task the enum lookup `TaskStatus('COMPLETED')`
raises before anything is committed. -/
lemma complete_task_state_eq (vc : String → String → Bool) (s : AppState)
    (now : Nat) (tid : String) : (complete_task vc s now tid).state = s := by
  unfold complete_task update_task
  cases h : getTask s tid with
  | none => rfl
  | some t => rfl

/-- `snooze_task` never changes the state (`TaskStatus('SNOOZED')` raises). -/
lemma snooze_task_state_eq (vc : String → String → Bool) (s : AppState)
    (now : Nat) (tid : String) (d : Nat) :
    (snooze_task vc s now tid d).state = s := by
  unfold snooze_task update_task
  cases h : getTask s tid with
  | none => rfl
  | some t => rfl

/-- `reactivate_task` never changes the state (`TaskStatus('PENDING')`
raises). -/
lemma reactivate_task_state_eq (vc : String → String → Bool) (s : AppState)
    (now : Nat) (tid : String) : (reactivate_task vc s now tid).state = s := by
  unfold reactivate_task update_task
  cases h : getTask s tid with
  | none => rfl
  | some t => rfl

/-- Replacing the found task by a task with the same id makes `find?` return
the replacement. -/
lemma find?_replaceTask (tid : String) (t2 : Task) :
    ∀ (ts : List Task) (t : Task),
      ts.find? (fun x => x.id == tid) = some t → t2.id = t.id →
      (replaceTask ts tid t2).find? (fun x => x.id == tid) = some t2 := by
  intro ts
  induction ts with
  | nil => intro t h _; simp [List.find?] at h
  | cons x xs ih =>
    intro t h h2
    by_cases hx : (x.id == tid) = true
    · rw [List.find?_cons_of_pos (p := fun y => (y : Task).id == tid) xs hx] at h
      injection h with h
      subst h
      have hx2 : (t2.id == tid) = true := by
        rw [h2]; exact hx
      show ((if (x.id == tid) = true then t2 else x) ::
          replaceTask xs tid t2).find? (fun y => y.id == tid) = some t2
      rw [if_pos hx]
      exact List.find?_cons_of_pos (p := fun y => (y : Task).id == tid) _ hx2
    · rw [List.find?_cons_of_neg (p := fun y => (y : Task).id == tid) xs hx] at h
      show ((if (x.id == tid) = true then t2 else x) ::
          replaceTask xs tid t2).find? (fun y => y.id == tid) = some t2
      rw [if_neg hx]
      rw [List.find?_cons_of_neg (p := fun y => (y : Task).id == tid) _ hx]
      exact ih t h h2

/-- Case analysis of `create_task`: either nothing was committed (missing
notify function, invalid priority, or invalid cron: the record is deleted
again before the exception propagates), or the task and its job were added. -/
lemma create_task_cases (vc : String → String → Bool) (s : AppState)
    (now : Nat) (a : CreateArgs) :
    (create_task vc s now a).state = s ∨
    ∃ p, parsePriority a.priority = some p ∧
      vc a.cron_expression a.timezone = true ∧
      (create_task vc s now a).state =
        { tasks := s.tasks ++ [newTask now a p],
          jobs := addJobReplace s.jobs (mkJob a.task_id (newTask now a p)),
          history := s.history } := by
  by_cases hng : a.notifyGiven = true
  · cases hp : parsePriority a.priority with
    | none =>
      left
      simp only [create_task, hng, hp, Bool.not_true, Bool.false_eq_true,
        if_false]
    | some p =>
      by_cases hv : vc a.cron_expression a.timezone = true
      · right
        refine ⟨p, rfl, hv, ?_⟩
        simp only [create_task, hng, hp, Bool.not_true, Bool.false_eq_true,
          if_false, if_pos hv]
      · left
        simp only [create_task, hng, hp, Bool.not_true, Bool.false_eq_true,
          if_false, if_neg hv]
  · have hng2 : a.notifyGiven = false := by
      revert hng
      cases a.notifyGiven <;> simp
    left
    simp only [create_task, hng2, Bool.not_false, if_true]

/-- Removing the jobs of one id leaves the job count of any other id
unchanged. -/
lemma countJobs_removeJob (jobs : List Job) (tid x : String)
    (h : ¬(x = tid)) :
    countJobs (removeJob jobs tid) x = countJobs jobs x := by
  induction jobs with
  | nil => rfl
  | cons j js ih =>
    unfold countJobs removeJob at *
    by_cases hj : (j.id == tid) = true
    · have hj2 : j.id = tid := by rwa [beq_iff_eq] at hj
      have hx : (j.id == x) = false := by
        rw [beq_eq_false_iff_ne, hj2]
        exact fun he => h he.symm
      simp [List.filter_cons, hj, List.countP_cons, hx, ih]
    · simp [List.filter_cons, hj, List.countP_cons, ih]

/-- The job count of an appended singleton. -/
lemma countJobs_append_one (jobs : List Job) (j : Job) (x : String) :
    countJobs (jobs ++ [j]) x =
      countJobs jobs x + (if (j.id == x) = true then 1 else 0) := by
  unfold countJobs
  rw [List.countP_append]
  congr 1
  simp [List.countP_cons]

/-- When no job with the new job's id is stored,
`add_job(replace_existing=True)` is a plain append. -/
lemma addJobReplace_fresh (jobs : List Job) (j : Job)
    (h : countJobs jobs j.id = 0) : addJobReplace jobs j = jobs ++ [j] := by
  unfold addJobReplace
  have hany : jobs.any (fun j0 => j0.id == j.id) = false := by
    rw [List.any_eq_false]
    intro x hx
    exact List.countP_eq_zero.mp h x hx
  rw [hany]
  simp

/-! ### Claim theorems -/

/-- C2: the claim says `snooze_task` on a Pending task transitions it to
Snoozed, sets `snoozed_until`, and removes the job.  In the code the
dictionary value is the string `'SNOOZED'` while the enum values are
lowercase, so `TaskStatus('SNOOZED')` raises `ValueError`: on the concrete
pending task nothing at all happens — the task stays Pending with its job and
the call raises. -/
theorem C2_snooze_raises :
    snooze_task cronOk state0 100 "a" 2 =
      { state := state0,
        result := Except.error "ValueError: not a valid TaskStatus" } := rfl

/-- C3: the claim says `reactivate_task` on a Snoozed task transitions it to
Pending, clears `snoozed_until` and re-adds a job.  In the code
`TaskStatus('PENDING')` raises `ValueError` (enum values are lowercase), so
on the concrete snoozed task nothing happens and no job is created. -/
theorem C3_reactivate_raises :
    reactivate_task cronOk state0S 100 "a" =
      { state := state0S,
        result := Except.error "ValueError: not a valid TaskStatus" } := rfl

/-- C4: the claim says the first `complete_task` call sets `completed_at` and
the second is a no-op.  In the code `TaskStatus('COMPLETED')` raises
`ValueError` (enum values are lowercase), so neither call completes the task:
both raise and `completed_at` is never set at all. -/
theorem C4_complete_raises :
    complete_task cronOk state0 5 "a" =
      { state := state0,
        result := Except.error "ValueError: not a valid TaskStatus" } ∧
    complete_task cronOk (complete_task cronOk state0 5 "a").state 9 "a" =
      { state := state0,
        result := Except.error "ValueError: not a valid TaskStatus" } :=
  ⟨rfl, rfl⟩

/-- C8: a task's `run_count` is incremented, `last_run` set, and an
`executed` history row appended exactly when dispatch succeeds: a failed
dispatch raises `raise_for_status` before `record_execution` runs and the
state is unchanged; a successful dispatch performs all three updates. -/
theorem C8_notify_records (s : AppState) (now : Nat)
    (topic title body tid : String) (t : Task)
    (ht : getTask s tid = some t) :
    ((notify s now false topic title body (some tid)).1 = s ∧
      (notify s now false topic title body (some tid)).2 =
        Except.error "HTTPStatusError") ∧
    ((getTask (notify s now true topic title body (some tid)).1 tid).map
        Task.run_count = some (t.run_count + 1) ∧
      (getTask (notify s now true topic title body (some tid)).1 tid).map
        Task.last_run = some (some now) ∧
      (notify s now true topic title body (some tid)).1.history =
        s.history ++
          [{ task_id := tid, status := "executed", timestamp := now,
             details := HistDetails.runCount (t.run_count + 1) }] ∧
      (notify s now true topic title body (some tid)).2 = Except.ok ()) := by
  have hstate : (notify s now true topic title body (some tid)).1 =
      record_execution s now tid := rfl
  have hrec : record_execution s now tid =
      { tasks := replaceTask s.tasks tid
          { t with run_count := t.run_count + 1, last_run := some now },
        jobs := s.jobs,
        history := s.history ++
          [{ task_id := tid, status := "executed", timestamp := now,
             details := HistDetails.runCount (t.run_count + 1) }] } := by
    unfold record_execution
    rw [ht]
  have hfind : getTask (record_execution s now tid) tid =
      some { t with run_count := t.run_count + 1, last_run := some now } := by
    rw [hrec]
    exact find?_replaceTask tid _ s.tasks t ht rfl
  refine ⟨⟨rfl, rfl⟩, ?_, ?_, ?_, rfl⟩
  · rw [hstate, hfind]; rfl
  · rw [hstate, hfind]; rfl
  · rw [hstate, hrec]

/-- C8 witness: the theorem applied to the concrete one-task state. -/
theorem C8_notify_records_w :
    ((notify state0 11 false "tp" "water plants" "do it" (some "a")).1 =
        state0 ∧
      (notify state0 11 false "tp" "water plants" "do it" (some "a")).2 =
        Except.error "HTTPStatusError") ∧
    ((getTask (notify state0 11 true "tp" "water plants" "do it"
          (some "a")).1 "a").map Task.run_count = some (task0.run_count + 1) ∧
      (getTask (notify state0 11 true "tp" "water plants" "do it"
          (some "a")).1 "a").map Task.last_run = some (some 11) ∧
      (notify state0 11 true "tp" "water plants" "do it" (some "a")).1.history =
        state0.history ++
          [{ task_id := "a", status := "executed", timestamp := 11,
             details := HistDetails.runCount (task0.run_count + 1) }] ∧
      (notify state0 11 true "tp" "water plants" "do it" (some "a")).2 =
        Except.ok ()) :=
  C8_notify_records state0 11 "tp" "water plants" "do it" "a" task0 (by decide)

/-- C9: `record_execution` on a task id that names no stored task is a silent
no-op: it raises nothing and leaves the whole state (tasks, jobs, history)
unchanged. -/
theorem C9_record_missing_noop (s : AppState) (now : Nat) (tid : String)
    (h : getTask s tid = none) : record_execution s now tid = s := by
  unfold record_execution
  rw [h]

/-- C9 witness: the theorem applied to a concrete absent id. -/
theorem C9_record_missing_noop_w :
    record_execution state0 42 "ghost" = state0 :=
  C9_record_missing_noop state0 42 "ghost" (by decide)

/-- C1 counterexample: the join invariant does not hold after every
lifecycle operation.  Starting from a state satisfying it (one pending task
with its job), `update_task` with an invalid new cron expression and a
notify function removes the prior job, swallows the trigger error, and
leaves the task Pending with no job. -/
theorem C1_cx :
    joinInv state0 ∧
    ¬ joinInv (update_task cronOk state0 1 "a"
        [Upd.cron_expression "bad"] true).state := by
  decide

/-- C1 amended: the join invariant is preserved by `create_task`,
`delete_task`, `complete_task`, `snooze_task` and `reactivate_task` — the
latter three trivially, because their uppercase status strings make
`TaskStatus(value)` raise `ValueError` before anything is committed, so they
never change the state — but not by `update_task`, which can leave a Pending
task with no job (see the counterexample). -/
theorem C1_amended (vc : String → String → Bool) (s : AppState) (now : Nat)
    (tid : String) (d : Nat) (a : CreateArgs)
    (hinv : joinInv s)
    (hfreshTask : ∀ t ∈ s.tasks, t.id ≠ a.task_id)
    (hfreshJob : countJobs s.jobs a.task_id = 0) :
    (complete_task vc s now tid).state = s ∧
    (snooze_task vc s now tid d).state = s ∧
    (reactivate_task vc s now tid).state = s ∧
    joinInv (delete_task s tid).1 ∧
    joinInv (create_task vc s now a).state := by
  refine ⟨complete_task_state_eq vc s now tid,
    snooze_task_state_eq vc s now tid d,
    reactivate_task_state_eq vc s now tid, ?_, ?_⟩
  · unfold delete_task
    cases hg : getTask s tid with
    | none => exact hinv
    | some t0 =>
      intro t htmem
      have hmem2 := List.mem_filter.mp htmem
      have hid : ¬(t.id = tid) := by
        have hb := hmem2.2
        simp only [Bool.not_eq_true', beq_eq_false_iff_ne] at hb
        exact hb
      show t.status = TaskStatus.pending ↔
        countJobs (removeJob s.jobs tid) t.id = 1
      rw [countJobs_removeJob s.jobs tid t.id hid]
      exact hinv t hmem2.1
  · rcases create_task_cases vc s now a with h | ⟨p, hp, hv, h⟩
    · rw [h]; exact hinv
    · rw [h]
      have hjobs : addJobReplace s.jobs (mkJob a.task_id (newTask now a p)) =
          s.jobs ++ [mkJob a.task_id (newTask now a p)] :=
        addJobReplace_fresh s.jobs _ hfreshJob
      rw [hjobs]
      intro t htmem
      rcases List.mem_append.mp htmem with hmem | hmem
      · have hid : t.id ≠ a.task_id := hfreshTask t hmem
        have hbeq :
            ((mkJob a.task_id (newTask now a p)).id == t.id) = false := by
          show (a.task_id == t.id) = false
          rw [beq_eq_false_iff_ne]
          exact fun he => hid he.symm
        show t.status = TaskStatus.pending ↔
          countJobs (s.jobs ++ [mkJob a.task_id (newTask now a p)]) t.id = 1
        rw [countJobs_append_one, hbeq]
        simp only [Bool.false_eq_true, if_false, Nat.add_zero]
        exact hinv t hmem
      · have ht : t = newTask now a p := List.mem_singleton.mp hmem
        subst ht
        constructor
        · intro _
          show countJobs (s.jobs ++ [mkJob a.task_id (newTask now a p)])
            (newTask now a p).id = 1
          rw [countJobs_append_one]
          have hb : ((mkJob a.task_id (newTask now a p)).id ==
              (newTask now a p).id) = true := by
            show (a.task_id == a.task_id) = true
            exact beq_self_eq_true a.task_id
          rw [hb, if_pos rfl]
          have hz : countJobs s.jobs (newTask now a p).id = 0 := hfreshJob
          rw [hz]
        · intro _
          rfl

/-- C1 amended witness: the amended theorem at the concrete one-task state
with a fresh creation id. -/
theorem C1_amended_w :
    (complete_task cronOk state0 3 "a").state = state0 ∧
    (snooze_task cronOk state0 3 "a" 2).state = state0 ∧
    (reactivate_task cronOk state0 3 "a").state = state0 ∧
    joinInv (delete_task state0 "a").1 ∧
    joinInv (create_task cronOk state0 3 args0).state :=
  C1_amended cronOk state0 3 "a" 2 args0 (by decide) (by decide) (by decide)

/-- C7 counterexample: the nullable-field invariant is not preserved by
every public mutation.  `update_task` with `{'status': 'snoozed'}` and no
`snoozed_until` key transitions a fresh Pending task (whose `snoozed_until`
is null) to Snoozed while leaving `snoozed_until` null. -/
theorem C7_cx :
    stateInv state0 ∧
    ¬ stateInv (update_task cronOk state0 2 "a"
        [Upd.status "snoozed"] false).state := by
  decide

/-- C7 amended: the nullable-field invariant is preserved by `create_task`
(the new task is Pending with both fields null) and by `complete_task`,
`snooze_task` and `reactivate_task` (which raise `ValueError` and change
nothing), but not by `update_task` with arbitrary `update_data` (see the
counterexample). -/
theorem C7_amended (vc : String → String → Bool) (s : AppState) (now : Nat)
    (tid : String) (d : Nat) (a : CreateArgs)
    (hinv : stateInv s) :
    stateInv (complete_task vc s now tid).state ∧
    stateInv (snooze_task vc s now tid d).state ∧
    stateInv (reactivate_task vc s now tid).state ∧
    stateInv (create_task vc s now a).state := by
  refine ⟨?_, ?_, ?_, ?_⟩
  · rw [complete_task_state_eq]; exact hinv
  · rw [snooze_task_state_eq]; exact hinv
  · rw [reactivate_task_state_eq]; exact hinv
  · rcases create_task_cases vc s now a with h | ⟨p, hp, hv, h⟩
    · rw [h]; exact hinv
    · rw [h]
      intro t htmem
      rcases List.mem_append.mp htmem with hmem | hmem
      · exact hinv t hmem
      · have ht : t = newTask now a p := List.mem_singleton.mp hmem
        subst ht
        constructor
        · intro hst
          exact TaskStatus.noConfusion hst
        · intro hst
          exact TaskStatus.noConfusion hst

/-- C7 amended witness: the amended theorem at the concrete one-task state. -/
theorem C7_amended_w :
    stateInv (complete_task cronOk state0 4 "a").state ∧
    stateInv (snooze_task cronOk state0 4 "a" 2).state ∧
    stateInv (reactivate_task cronOk state0 4 "a").state ∧
    stateInv (create_task cronOk state0 4 args0).state :=
  C7_amended cronOk state0 4 "a" 2 args0 (by decide)

/-- After removing the jobs of an id, no job with that id is found. -/
lemma getJob_removeJob (jobs : List Job) (tid : String) :
    getJob (removeJob jobs tid) tid = none := by
  unfold getJob removeJob
  rw [List.find?_eq_none]
  intro j hj
  have hm := List.mem_filter.mp hj
  have hb := hm.2
  simp only [Bool.not_eq_true'] at hb
  simp [hb]

/-- C5 counterexample: the claim says an invalid reschedule fails to the
caller, rolls back `cron_expression` and keeps the prior job.  On the
concrete pending task with a job, `update_task` with an invalid new cron
expression returns normally, persists the invalid expression, and removes
the prior job (the task had a job before the call). -/
theorem C5_cx :
    isOkResult (update_task cronOk state0 7 "a"
      [Upd.cron_expression "bad cron"] true) = true ∧
    (getTask (update_task cronOk state0 7 "a"
        [Upd.cron_expression "bad cron"] true).state "a").map
      Task.cron_expression = some "bad cron" ∧
    getJob (update_task cronOk state0 7 "a"
        [Upd.cron_expression "bad cron"] true).state.jobs "a" = none ∧
    getJob state0.jobs "a" = some job0 := by
  decide

/-- C5 amended: rescheduling a Pending task with an invalid new cron
expression does not fail to the caller: `update_task` catches the trigger
error and returns the updated task, the invalid `cron_expression` is
persisted (not rolled back), the prior job is removed and no new one is
added — the task stays Pending but unscheduled. -/
theorem C5_amended (vc : String → String → Bool) (s : AppState) (now : Nat)
    (tid newCron : String) (t : Task)
    (ht : getTask s tid = some t)
    (hpend : t.status = TaskStatus.pending)
    (hbad : vc newCron t.timezone = false) :
    isOkResult (update_task vc s now tid [Upd.cron_expression newCron] true) =
      true ∧
    (getTask (update_task vc s now tid
        [Upd.cron_expression newCron] true).state tid).map
      Task.cron_expression = some newCron ∧
    (getTask (update_task vc s now tid
        [Upd.cron_expression newCron] true).state tid).map
      Task.status = some TaskStatus.pending ∧
    getJob (update_task vc s now tid
        [Upd.cron_expression newCron] true).state.jobs tid = none := by
  have hfold : List.foldlM (applyUpd now
      (hasKey [Upd.cron_expression newCron] "snoozed_until")
      (dictSnoozedUntil [Upd.cron_expression newCron]) tid)
      (t, ([] : List HistoryEntry)) [Upd.cron_expression newCron] =
      Except.ok ({ t with cron_expression := newCron },
        ([] : List HistoryEntry)) := rfl
  have hguard : (([Upd.cron_expression newCron].any
      (fun u => rescheduleKeys.contains u.key)) && true) = true := rfl
  have key : update_task vc s now tid [Upd.cron_expression newCron] true =
      { state :=
          { tasks :=
              replaceTask s.tasks tid
                { t with cron_expression := newCron, modified_at := now },
            jobs :=
              (match getJob s.jobs tid with
                | some _ => removeJob s.jobs tid
                | none => s.jobs),
            history := s.history ++ [] },
        result :=
          Except.ok (some
            { t with cron_expression := newCron, modified_at := now }) } := by
    simp [update_task, ht, hfold, hguard, hpend, hbad]
    intro h
    exact absurd (show (Upd.cron_expression newCron).key ∈ rescheduleKeys from
      (by decide : ("cron_expression" : String) ∈ rescheduleKeys)) h
  have hfind := find?_replaceTask tid
    { t with cron_expression := newCron, modified_at := now } s.tasks t ht rfl
  refine ⟨?_, ?_, ?_, ?_⟩
  · rw [key]
    rfl
  · rw [key]
    show ((replaceTask s.tasks tid
        ({ t with cron_expression := newCron, modified_at := now })).find?
      (fun x => x.id == tid)).map Task.cron_expression = some newCron
    rw [hfind]
    rfl
  · rw [key]
    show ((replaceTask s.tasks tid
        ({ t with cron_expression := newCron, modified_at := now })).find?
      (fun x => x.id == tid)).map Task.status = some TaskStatus.pending
    rw [hfind]
    show some t.status = some TaskStatus.pending
    rw [hpend]
  · rw [key]
    show getJob (match getJob s.jobs tid with
      | some _ => removeJob s.jobs tid
      | none => s.jobs) tid = none
    cases hg : getJob s.jobs tid with
    | none => exact hg
    | some j => exact getJob_removeJob s.jobs tid

/-- C5 amended witness: the amended theorem at the concrete one-task
state. -/
theorem C5_amended_w :
    isOkResult (update_task cronOk state0 8 "a"
      [Upd.cron_expression "0 0 31 2 *"] true) = true ∧
    (getTask (update_task cronOk state0 8 "a"
        [Upd.cron_expression "0 0 31 2 *"] true).state "a").map
      Task.cron_expression = some "0 0 31 2 *" ∧
    (getTask (update_task cronOk state0 8 "a"
        [Upd.cron_expression "0 0 31 2 *"] true).state "a").map
      Task.status = some TaskStatus.pending ∧
    getJob (update_task cronOk state0 8 "a"
        [Upd.cron_expression "0 0 31 2 *"] true).state.jobs "a" = none :=
  C5_amended cronOk state0 8 "a" "0 0 31 2 *" task0 (by decide) (by decide)
    (by decide)

/-- Finding an appended element when nothing before it matches. -/
lemma find?_append_fresh {α : Type} (p : α → Bool) :
    ∀ (l : List α) (x : α), (∀ y ∈ l, ¬ p y = true) → p x = true →
      (l ++ [x]).find? p = some x := by
  intro l
  induction l with
  | nil =>
    intro x _ hx
    simp [List.find?, hx]
  | cons a l ih =>
    intro x h hx
    have ha : p a = false := by
      have h1 := h a (List.mem_cons_self a l)
      cases hpa : p a
      · rfl
      · exact absurd hpa h1
    show (a :: (l ++ [x])).find? p = some x
    rw [List.find?_cons_of_neg]
    · exact ih x (fun y hy => h y (List.mem_cons_of_mem a hy)) hx
    · simp [ha]

/-- No element of a list satisfies the predicate, in `find?` form. -/
lemma find?_none_of_forall {α : Type} (p : α → Bool) (l : List α)
    (h : ∀ y ∈ l, ¬ p y = true) : l.find? p = none := by
  rw [List.find?_eq_none]
  exact h

/-- C6: `create_task` rejects an invalid cron expression synchronously with
an error, and afterwards neither a task row nor a scheduler job for the new
id exists (the committed row is deleted again before the `HTTPException`
propagates); with a valid cron expression it creates the task with status
Pending and registers its scheduler job. -/
theorem C6_create (vc : String → String → Bool) (s : AppState) (now : Nat)
    (a : CreateArgs) (p : TaskPriority)
    (hn : a.notifyGiven = true)
    (hprio : parsePriority a.priority = some p)
    (hfreshTask : ∀ t ∈ s.tasks, t.id ≠ a.task_id)
    (hfreshJob : countJobs s.jobs a.task_id = 0) :
    (vc a.cron_expression a.timezone = false →
      isOkResult (create_task vc s now a) = false ∧
      (create_task vc s now a).state = s ∧
      getTask (create_task vc s now a).state a.task_id = none ∧
      getJob (create_task vc s now a).state.jobs a.task_id = none) ∧
    (vc a.cron_expression a.timezone = true →
      (getTask (create_task vc s now a).state a.task_id).map Task.status =
        some TaskStatus.pending ∧
      getJob (create_task vc s now a).state.jobs a.task_id =
        some (mkJob a.task_id (newTask now a p))) := by
  have hTaskNone : getTask s a.task_id = none := by
    apply find?_none_of_forall
    intro y hy
    simp only [beq_iff_eq]
    exact fun he => hfreshTask y hy he
  have hJobAll : ∀ j ∈ s.jobs, ¬ (j.id == a.task_id) = true :=
    List.countP_eq_zero.mp hfreshJob
  have hJobNone : getJob s.jobs a.task_id = none :=
    find?_none_of_forall _ s.jobs hJobAll
  constructor
  · intro hv
    have key : create_task vc s now a =
        { state := s,
          result :=
            Except.error "HTTPException 400: invalid cron expression" } := by
      simp [create_task, hn, hprio, hv]
    rw [key]
    exact ⟨rfl, rfl, hTaskNone, hJobNone⟩
  · intro hv
    have key : create_task vc s now a =
        { state :=
            { tasks := s.tasks ++ [newTask now a p],
              jobs := addJobReplace s.jobs (mkJob a.task_id (newTask now a p)),
              history := s.history },
          result := Except.ok (some (newTask now a p)) } := by
      simp [create_task, hn, hprio, hv]
    rw [key]
    rw [addJobReplace_fresh s.jobs _ hfreshJob]
    constructor
    · have hfound : getTask
          ({ tasks := s.tasks ++ [newTask now a p],
             jobs := s.jobs ++ [mkJob a.task_id (newTask now a p)],
             history := s.history } : AppState) a.task_id =
          some (newTask now a p) := by
        apply find?_append_fresh
        · intro y hy
          simp only [beq_iff_eq]
          exact fun he => hfreshTask y hy he
        · show ((newTask now a p).id == a.task_id) = true
          simp [newTask]
      rw [hfound]
      rfl
    · show (s.jobs ++ [mkJob a.task_id (newTask now a p)]).find?
        (fun j => j.id == a.task_id) = some (mkJob a.task_id (newTask now a p))
      apply find?_append_fresh
      · exact hJobAll
      · show (a.task_id == a.task_id) = true
        exact beq_self_eq_true a.task_id

/-- Concrete `create_task` arguments with an invalid cron expression. -/
def args0bad : CreateArgs := { args0 with cron_expression := "every day" }

/-- C6 witness: the theorem applied at the concrete state, once with an
invalid and once with a valid cron expression. -/
theorem C6_create_w :
    (isOkResult (create_task cronOk state0 6 args0bad) = false ∧
      (create_task cronOk state0 6 args0bad).state = state0 ∧
      getTask (create_task cronOk state0 6 args0bad).state "b" = none ∧
      getJob (create_task cronOk state0 6 args0bad).state.jobs "b" = none) ∧
    ((getTask (create_task cronOk state0 6 args0).state "b").map Task.status =
        some TaskStatus.pending ∧
      getJob (create_task cronOk state0 6 args0).state.jobs "b" =
        some (mkJob "b" (newTask 6 args0 TaskPriority.medium))) :=
  ⟨(C6_create cronOk state0 6 args0bad TaskPriority.medium rfl rfl (by decide)
      (by decide)).1 (by decide),
   (C6_create cronOk state0 6 args0 TaskPriority.medium rfl rfl (by decide)
      (by decide)).2 (by decide)⟩

/-- C10 counterexample: `update_task` does not leave every field not named
in `update_data` unchanged (modulo `modified_at`): updating only the key
`status` to `"completed"` also sets `completed_at`, a field not named in the
dictionary. -/
theorem C10_cx :
    task0.completed_at = none ∧
    hasKey [Upd.status "completed"] "completed_at" = false ∧
    (getTask (update_task cronOk state0 9 "a"
        [Upd.status "completed"] false).state "a").map
      Task.completed_at = some (some 9) := by
  decide

/-- `hasKey` in universally quantified form. -/
lemma hasKey_eq_false (us : List Upd) (k : String) :
    hasKey us k = false ↔ ∀ u ∈ us, u.key ≠ k := by
  simp [hasKey, List.any_eq_false]

/-- `filter` step when the head is an attribute entry. -/
lemma filter_other_cons_keep (u : Upd) (rest : List Upd)
    (h : u.isOther = false) :
    (u :: rest).filter (fun x => !x.isOther) =
      u :: rest.filter (fun x => !x.isOther) := by
  simp [List.filter_cons, h]

/-- `filter` step when the head is a non-attribute entry. -/
lemma filter_other_cons_drop (u : Upd) (rest : List Upd)
    (h : u.isOther = true) :
    (u :: rest).filter (fun x => !x.isOther) =
      rest.filter (fun x => !x.isOther) := by
  simp [List.filter_cons, h]

/-- Filtering out the non-attribute entries does not change the
`update_data['snoozed_until']` lookup (the lookup skips them anyway). -/
lemma dictSnoozedUntil_filter (us : List Upd) :
    dictSnoozedUntil (us.filter (fun x => !x.isOther)) =
      dictSnoozedUntil us := by
  induction us with
  | nil => rfl
  | cons u rest ih =>
    by_cases hu : u.isOther = true
    · rw [filter_other_cons_drop u rest hu]
      cases u <;> first | exact ih | exact Bool.noConfusion hu
    · have hu2 : u.isOther = false := Bool.not_eq_true _ |>.mp hu
      rw [filter_other_cons_keep u rest hu2]
      cases u <;> first | rfl | exact ih

/-- Filtering out the non-attribute entries does not change key membership
for an attribute key. -/
lemma hasKey_filter_other (us : List Upd)
    (hwf : ∀ u ∈ us, updOk u = true) (k : String)
    (hkc : taskAttrNames.contains k = true) :
    hasKey (us.filter (fun x => !x.isOther)) k = hasKey us k := by
  unfold hasKey
  induction us with
  | nil => rfl
  | cons u rest ih =>
    have hwfr : ∀ x ∈ rest, updOk x = true :=
      fun x hx => hwf x (List.mem_cons_of_mem u hx)
    by_cases hu : u.isOther = true
    · rw [filter_other_cons_drop u rest hu]
      cases u <;> try exact Bool.noConfusion hu
      rename_i k0
      have hok := hwf (Upd.other k0) (List.mem_cons_self _ _)
      have hc : taskAttrNames.contains k0 = false := by
        simpa [updOk] using hok
      have hne : ((Upd.other k0).key == k) = false := by
        show (k0 == k) = false
        cases hb : k0 == k with
        | false => rfl
        | true =>
          have hk0 : k0 = k := by rwa [beq_iff_eq] at hb
          rw [hk0, hkc] at hc
          exact Bool.noConfusion hc
      simp [List.any_cons, hne, ih hwfr]
    · have hu2 : u.isOther = false := Bool.not_eq_true _ |>.mp hu
      rw [filter_other_cons_keep u rest hu2, List.any_cons, List.any_cons,
        ih hwfr]

/-- Filtering out the non-attribute entries does not change the reschedule
guard (non-attribute keys are never reschedule keys). -/
lemma any_reschedule_filter (us : List Upd)
    (hwf : ∀ u ∈ us, updOk u = true) :
    (us.filter (fun x => !x.isOther)).any
        (fun u => rescheduleKeys.contains u.key) =
      us.any (fun u => rescheduleKeys.contains u.key) := by
  induction us with
  | nil => rfl
  | cons u rest ih =>
    have hwfr : ∀ x ∈ rest, updOk x = true :=
      fun x hx => hwf x (List.mem_cons_of_mem u hx)
    by_cases hu : u.isOther = true
    · rw [filter_other_cons_drop u rest hu]
      cases u <;> try exact Bool.noConfusion hu
      rename_i k0
      have hok := hwf (Upd.other k0) (List.mem_cons_self _ _)
      have hc : taskAttrNames.contains k0 = false := by
        simpa [updOk] using hok
      have hrk : (rescheduleKeys.contains (Upd.other k0).key) = false := by
        show rescheduleKeys.contains k0 = false
        cases hb : rescheduleKeys.contains k0 with
        | false => rfl
        | true =>
          exfalso
          have hmem : k0 ∈ rescheduleKeys := List.elem_iff.mp hb
          simp only [rescheduleKeys, List.mem_cons, List.not_mem_nil,
            or_false] at hmem
          rcases hmem with rfl | rfl | rfl | rfl <;>
            exact absurd hc (by decide)
      simp only [List.any_cons, hrk, Bool.false_or]
      exact ih hwfr
    · have hu2 : u.isOther = false := Bool.not_eq_true _ |>.mp hu
      rw [filter_other_cons_keep u rest hu2, List.any_cons, List.any_cons,
        ih hwfr]

/-- A fold whose step ignores non-attribute entries gives the same result on
the attribute-only restriction of the list. -/
lemma foldlM_skip_other
    (f : Task × List HistoryEntry → Upd →
      Except String (Task × List HistoryEntry))
    (hf : ∀ acc k, f acc (Upd.other k) = Except.ok acc) :
    ∀ (rest : List Upd) (acc : Task × List HistoryEntry),
      List.foldlM f acc (rest.filter (fun x => !x.isOther)) =
        List.foldlM f acc rest := by
  intro rest
  induction rest with
  | nil => intro acc; rfl
  | cons u r ih =>
    intro acc
    by_cases hu : u.isOther = true
    · have hk : ∃ k, u = Upd.other k := by
        cases u <;> first | exact ⟨_, rfl⟩ | exact Bool.noConfusion hu
      obtain ⟨k, rfl⟩ := hk
      rw [filter_other_cons_drop _ r hu, List.foldlM_cons, hf acc k]
      show List.foldlM f acc (r.filter (fun x => !x.isOther)) =
        List.foldlM f acc r
      exact ih acc
    · have hu2 : u.isOther = false := Bool.not_eq_true _ |>.mp hu
      rw [filter_other_cons_keep u r hu2, List.foldlM_cons, List.foldlM_cons]
      cases ha : f acc u with
      | error e => rfl
      | ok acc2 =>
        show List.foldlM f acc2 (r.filter (fun x => !x.isOther)) =
          List.foldlM f acc2 r
        exact ih acc2

/-- `update_task` gives identical results on a dictionary and on its
restriction to attribute keys (non-attribute keys are silently ignored). -/
lemma update_task_filter_other (vc : String → String → Bool) (s : AppState)
    (now : Nat) (tid : String) (us : List Upd) (ng : Bool)
    (hwf : ∀ u ∈ us, updOk u = true) :
    update_task vc s now tid (us.filter (fun x => !x.isOther)) ng =
      update_task vc s now tid us ng := by
  unfold update_task
  cases hget : getTask s tid with
  | none => rfl
  | some task =>
    simp only []
    have hfold2 : List.foldlM
        (applyUpd now
          (hasKey (us.filter (fun x => !x.isOther)) "snoozed_until")
          (dictSnoozedUntil (us.filter (fun x => !x.isOther))) tid)
        (task, ([] : List HistoryEntry)) (us.filter (fun x => !x.isOther)) =
        List.foldlM
          (applyUpd now (hasKey us "snoozed_until") (dictSnoozedUntil us) tid)
          (task, ([] : List HistoryEntry)) us := by
      rw [hasKey_filter_other us hwf "snoozed_until" (by decide),
        dictSnoozedUntil_filter us]
      exact foldlM_skip_other _ (fun acc k => rfl) us
        (task, ([] : List HistoryEntry))
    rw [hfold2, any_reschedule_filter us hwf]

/-- Frame facts for a single update-loop iteration: which `Task` fields one
dictionary entry can change. -/
lemma applyUpd_frame (now : Nat) (hasSU : Bool) (dictSU : Option (Option Nat))
    (tid : String) (acc : Task × List HistoryEntry) (u : Upd) (t1 : Task)
    (hs1 : List HistoryEntry)
    (h : applyUpd now hasSU dictSU tid acc u = Except.ok (t1, hs1)) :
    t1.id = acc.1.id ∧ t1.created_at = acc.1.created_at ∧
    t1.modified_at = acc.1.modified_at ∧ t1.run_count = acc.1.run_count ∧
    t1.last_run = acc.1.last_run ∧
    t1.notification_channels = acc.1.notification_channels ∧
    (u.key ≠ "title" → t1.title = acc.1.title) ∧
    (u.key ≠ "description" → t1.description = acc.1.description) ∧
    (u.key ≠ "topic" → t1.topic = acc.1.topic) ∧
    (u.key ≠ "body" → t1.body = acc.1.body) ∧
    (u.key ≠ "cron_expression" → t1.cron_expression = acc.1.cron_expression) ∧
    (u.key ≠ "priority" → t1.priority = acc.1.priority) ∧
    (u.key ≠ "status" → t1.status = acc.1.status) ∧
    (u.key ≠ "timezone" → t1.timezone = acc.1.timezone) ∧
    (u.key ≠ "tags" → t1.tags = acc.1.tags) ∧
    (u.key ≠ "attachments" → t1.attachments = acc.1.attachments) ∧
    (u.key ≠ "notes" → t1.notes = acc.1.notes) ∧
    (u.key ≠ "notification_sound" →
      t1.notification_sound = acc.1.notification_sound) ∧
    (u.key ≠ "category_id" → t1.category_id = acc.1.category_id) ∧
    (u.key ≠ "completed_at" →
      (∀ v, u = Upd.status v → parseStatus v ≠ some TaskStatus.completed) →
      t1.completed_at = acc.1.completed_at) ∧
    (u.key ≠ "snoozed_until" → hasSU = false →
      t1.snoozed_until = acc.1.snoozed_until) := by
  obtain ⟨accT, accH⟩ := acc
  cases u
  case priority v =>
    simp only [applyUpd] at h
    cases hp : parsePriority v with
    | none =>
      rw [hp] at h
      exact Except.noConfusion h
    | some p =>
      rw [hp] at h
      injection h with h
      injection h with hA hB
      subst hA; subst hB
      refine ⟨rfl, rfl, rfl, rfl, rfl, rfl, ?_, ?_, ?_, ?_, ?_, ?_, ?_, ?_,
        ?_, ?_, ?_, ?_, ?_, ?_, ?_⟩ <;>
        (intro hk; intros; first | rfl | exact absurd rfl hk)
  case status v =>
    simp only [applyUpd] at h
    cases hps : parseStatus v with
    | none =>
      rw [hps] at h
      exact Except.noConfusion h
    | some ns =>
      rw [hps] at h
      by_cases heq : accT.status = ns
      · simp only [if_pos heq] at h
        injection h with h
        injection h with hA hB
        subst hA; subst hB
        refine ⟨rfl, rfl, rfl, rfl, rfl, rfl, ?_, ?_, ?_, ?_, ?_, ?_, ?_, ?_,
          ?_, ?_, ?_, ?_, ?_, ?_, ?_⟩ <;>
          (intro hk; intros; first | rfl | exact absurd rfl hk)
      · simp only [if_neg heq] at h
        by_cases hcomp : ns = TaskStatus.completed
        · subst hcomp
          simp only [if_pos rfl] at h
          injection h with h
          injection h with hA hB
          subst hA; subst hB
          exact ⟨rfl, rfl, rfl, rfl, rfl, rfl, fun _ => rfl, fun _ => rfl,
            fun _ => rfl, fun _ => rfl, fun _ => rfl, fun _ => rfl,
            fun hk => absurd rfl hk, fun _ => rfl, fun _ => rfl,
            fun _ => rfl, fun _ => rfl, fun _ => rfl, fun _ => rfl,
            fun _ hv => absurd hps (hv v rfl), fun _ _ => rfl⟩
        · simp only [if_neg hcomp] at h
          by_cases hsn : ns = TaskStatus.snoozed
          · subst hsn
            simp only [if_pos rfl] at h
            by_cases hsu : hasSU = true
            · rw [if_pos hsu] at h
              cases hd : dictSU with
              | some w =>
                rw [hd] at h
                injection h with h
                injection h with hA hB
                subst hA; subst hB
                exact ⟨rfl, rfl, rfl, rfl, rfl, rfl, fun _ => rfl,
                  fun _ => rfl, fun _ => rfl, fun _ => rfl, fun _ => rfl,
                  fun _ => rfl, fun hk => absurd rfl hk, fun _ => rfl,
                  fun _ => rfl, fun _ => rfl, fun _ => rfl, fun _ => rfl,
                  fun _ => rfl, fun _ _ => rfl,
                  fun _ hsuf => by
                    rw [hsu] at hsuf
                    exact Bool.noConfusion hsuf⟩
              | none =>
                rw [hd] at h
                injection h with h
                injection h with hA hB
                subst hA; subst hB
                refine ⟨rfl, rfl, rfl, rfl, rfl, rfl, ?_, ?_, ?_, ?_, ?_, ?_,
                  ?_, ?_, ?_, ?_, ?_, ?_, ?_, ?_, ?_⟩ <;>
                  (intro hk; intros; first | rfl | exact absurd rfl hk)
            · rw [if_neg hsu] at h
              injection h with h
              injection h with hA hB
              subst hA; subst hB
              refine ⟨rfl, rfl, rfl, rfl, rfl, rfl, ?_, ?_, ?_, ?_, ?_, ?_,
                ?_, ?_, ?_, ?_, ?_, ?_, ?_, ?_, ?_⟩ <;>
                (intro hk; intros; first | rfl | exact absurd rfl hk)
          · simp only [if_neg hsn] at h
            injection h with h
            injection h with hA hB
            subst hA; subst hB
            refine ⟨rfl, rfl, rfl, rfl, rfl, rfl, ?_, ?_, ?_, ?_, ?_, ?_, ?_,
              ?_, ?_, ?_, ?_, ?_, ?_, ?_, ?_⟩ <;>
              (intro hk; intros; first | rfl | exact absurd rfl hk)
  all_goals
    injection h with h
    injection h with hA hB
    subst hA; subst hB
    refine ⟨rfl, rfl, rfl, rfl, rfl, rfl, ?_, ?_, ?_, ?_, ?_, ?_, ?_, ?_, ?_,
      ?_, ?_, ?_, ?_, ?_, ?_⟩ <;>
      (intro hk; intros; first | rfl | exact absurd rfl hk)

/-- Frame facts for the whole update loop: which `Task` fields an
`update_data` dictionary can change. -/
lemma foldlM_frame (now : Nat) (hasSU : Bool) (dictSU : Option (Option Nat))
    (tid : String) :
    ∀ (us : List Upd) (acc : Task × List HistoryEntry) (t1 : Task)
      (hs1 : List HistoryEntry),
      List.foldlM (applyUpd now hasSU dictSU tid) acc us =
        Except.ok (t1, hs1) →
      t1.id = acc.1.id ∧ t1.created_at = acc.1.created_at ∧
      t1.modified_at = acc.1.modified_at ∧ t1.run_count = acc.1.run_count ∧
      t1.last_run = acc.1.last_run ∧
      t1.notification_channels = acc.1.notification_channels ∧
      ((∀ u ∈ us, Upd.key u ≠ "title") → t1.title = acc.1.title) ∧
      ((∀ u ∈ us, Upd.key u ≠ "description") →
        t1.description = acc.1.description) ∧
      ((∀ u ∈ us, Upd.key u ≠ "topic") → t1.topic = acc.1.topic) ∧
      ((∀ u ∈ us, Upd.key u ≠ "body") → t1.body = acc.1.body) ∧
      ((∀ u ∈ us, Upd.key u ≠ "cron_expression") →
        t1.cron_expression = acc.1.cron_expression) ∧
      ((∀ u ∈ us, Upd.key u ≠ "priority") → t1.priority = acc.1.priority) ∧
      ((∀ u ∈ us, Upd.key u ≠ "status") → t1.status = acc.1.status) ∧
      ((∀ u ∈ us, Upd.key u ≠ "timezone") → t1.timezone = acc.1.timezone) ∧
      ((∀ u ∈ us, Upd.key u ≠ "tags") → t1.tags = acc.1.tags) ∧
      ((∀ u ∈ us, Upd.key u ≠ "attachments") →
        t1.attachments = acc.1.attachments) ∧
      ((∀ u ∈ us, Upd.key u ≠ "notes") → t1.notes = acc.1.notes) ∧
      ((∀ u ∈ us, Upd.key u ≠ "notification_sound") →
        t1.notification_sound = acc.1.notification_sound) ∧
      ((∀ u ∈ us, Upd.key u ≠ "category_id") →
        t1.category_id = acc.1.category_id) ∧
      ((∀ u ∈ us, Upd.key u ≠ "completed_at") →
        (∀ v, Upd.status v ∈ us → parseStatus v ≠ some TaskStatus.completed) →
        t1.completed_at = acc.1.completed_at) ∧
      ((∀ u ∈ us, Upd.key u ≠ "snoozed_until") → hasSU = false →
        t1.snoozed_until = acc.1.snoozed_until) := by
  intro us
  induction us with
  | nil =>
    intro acc t1 hs1 h
    have hacc : acc = (t1, hs1) := by injection h
    subst hacc
    exact ⟨rfl, rfl, rfl, rfl, rfl, rfl, fun _ => rfl, fun _ => rfl,
      fun _ => rfl, fun _ => rfl, fun _ => rfl, fun _ => rfl, fun _ => rfl,
      fun _ => rfl, fun _ => rfl, fun _ => rfl, fun _ => rfl, fun _ => rfl,
      fun _ => rfl, fun _ _ => rfl, fun _ _ => rfl⟩
  | cons u us ih =>
    intro acc t1 hs1 h
    rw [List.foldlM_cons] at h
    cases ha : applyUpd now hasSU dictSU tid acc u with
    | error e =>
      rw [ha] at h
      exact Except.noConfusion h
    | ok acc2 =>
      rw [ha] at h
      have h2 : List.foldlM (applyUpd now hasSU dictSU tid) acc2 us =
          Except.ok (t1, hs1) := h
      obtain ⟨s1, s2, s3, s4, s5, s6, s7, s8, s9, s10, s11, s12, s13, s14,
        s15, s16, s17, s18, s19, s20, s21⟩ :=
        applyUpd_frame now hasSU dictSU tid acc u acc2.1 acc2.2 (by rw [ha])
      obtain ⟨r1, r2, r3, r4, r5, r6, r7, r8, r9, r10, r11, r12, r13, r14,
        r15, r16, r17, r18, r19, r20, r21⟩ := ih acc2 t1 hs1 h2
      have hhd : ∀ (k : String), (∀ x ∈ u :: us, Upd.key x ≠ k) →
          Upd.key u ≠ k :=
        fun k hk => hk u (List.mem_cons_self u us)
      have htl : ∀ (k : String), (∀ x ∈ u :: us, Upd.key x ≠ k) →
          ∀ x ∈ us, Upd.key x ≠ k :=
        fun k hk x hx => hk x (List.mem_cons_of_mem u hx)
      refine ⟨r1.trans s1, r2.trans s2, r3.trans s3, r4.trans s4,
        r5.trans s5, r6.trans s6, ?_, ?_, ?_, ?_, ?_, ?_, ?_, ?_, ?_, ?_,
        ?_, ?_, ?_, ?_, ?_⟩
      · intro hk; exact (r7 (htl _ hk)).trans (s7 (hhd _ hk))
      · intro hk; exact (r8 (htl _ hk)).trans (s8 (hhd _ hk))
      · intro hk; exact (r9 (htl _ hk)).trans (s9 (hhd _ hk))
      · intro hk; exact (r10 (htl _ hk)).trans (s10 (hhd _ hk))
      · intro hk; exact (r11 (htl _ hk)).trans (s11 (hhd _ hk))
      · intro hk; exact (r12 (htl _ hk)).trans (s12 (hhd _ hk))
      · intro hk; exact (r13 (htl _ hk)).trans (s13 (hhd _ hk))
      · intro hk; exact (r14 (htl _ hk)).trans (s14 (hhd _ hk))
      · intro hk; exact (r15 (htl _ hk)).trans (s15 (hhd _ hk))
      · intro hk; exact (r16 (htl _ hk)).trans (s16 (hhd _ hk))
      · intro hk; exact (r17 (htl _ hk)).trans (s17 (hhd _ hk))
      · intro hk; exact (r18 (htl _ hk)).trans (s18 (hhd _ hk))
      · intro hk; exact (r19 (htl _ hk)).trans (s19 (hhd _ hk))
      · intro hk hv
        exact (r20 (htl _ hk)
            (fun v2 hv2 => hv v2 (List.mem_cons_of_mem u hv2))).trans
          (s20 (hhd _ hk)
            (fun v2 hu2 => hv v2 (by rw [← hu2]
                                     exact List.mem_cons_self u us)))
      · intro hk hsu
        exact (r21 (htl _ hk) hsu).trans (s21 (hhd _ hk) hsu)

/-- C10 amended: on a successful call, `update_task` silently ignores the
entries whose key is not an attribute of `Task` (same result on the
attribute-only restriction of the dictionary), returns the updated task with
`modified_at` set to the current time, and leaves every `Task` field not
named in `update_data` unchanged — except `completed_at`, which the status
branch also sets when `update_data` maps `status` to `"completed"` and the
task was not already completed (see the counterexample). -/
theorem C10_amended (vc : String → String → Bool) (s : AppState) (now : Nat)
    (tid : String) (us : List Upd) (ng : Bool) (t t1 : Task)
    (hs : List HistoryEntry)
    (hwf : UpdWF us)
    (ht : getTask s tid = some t)
    (hfold : List.foldlM
        (applyUpd now (hasKey us "snoozed_until") (dictSnoozedUntil us) tid)
        (t, ([] : List HistoryEntry)) us = Except.ok (t1, hs)) :
    update_task vc s now tid (us.filter (fun x => !x.isOther)) ng =
      update_task vc s now tid us ng ∧
    (update_task vc s now tid us ng).result =
      Except.ok (some { t1 with modified_at := now }) ∧
    ({ t1 with modified_at := now } : Task).modified_at = now ∧
    t1.id = t.id ∧ t1.created_at = t.created_at ∧
    t1.run_count = t.run_count ∧ t1.last_run = t.last_run ∧
    t1.notification_channels = t.notification_channels ∧
    (hasKey us "title" = false → t1.title = t.title) ∧
    (hasKey us "description" = false → t1.description = t.description) ∧
    (hasKey us "topic" = false → t1.topic = t.topic) ∧
    (hasKey us "body" = false → t1.body = t.body) ∧
    (hasKey us "cron_expression" = false →
      t1.cron_expression = t.cron_expression) ∧
    (hasKey us "priority" = false → t1.priority = t.priority) ∧
    (hasKey us "status" = false → t1.status = t.status) ∧
    (hasKey us "timezone" = false → t1.timezone = t.timezone) ∧
    (hasKey us "tags" = false → t1.tags = t.tags) ∧
    (hasKey us "attachments" = false → t1.attachments = t.attachments) ∧
    (hasKey us "notes" = false → t1.notes = t.notes) ∧
    (hasKey us "notification_sound" = false →
      t1.notification_sound = t.notification_sound) ∧
    (hasKey us "category_id" = false → t1.category_id = t.category_id) ∧
    (hasKey us "completed_at" = false →
      (∀ v, Upd.status v ∈ us → parseStatus v ≠ some TaskStatus.completed) →
      t1.completed_at = t.completed_at) ∧
    (hasKey us "snoozed_until" = false →
      t1.snoozed_until = t.snoozed_until) := by
  obtain ⟨f1, f2, f3, f4, f5, f6, f7, f8, f9, f10, f11, f12, f13, f14, f15,
    f16, f17, f18, f19, f20, f21⟩ :=
    foldlM_frame now (hasKey us "snoozed_until") (dictSnoozedUntil us) tid us
      (t, ([] : List HistoryEntry)) t1 hs hfold
  refine ⟨update_task_filter_other vc s now tid us ng hwf.2, ?_, rfl,
    f1, f2, f4, f5, f6, ?_, ?_, ?_, ?_, ?_, ?_, ?_, ?_, ?_, ?_, ?_, ?_, ?_,
    ?_, ?_⟩
  · simp only [update_task, ht, hfold]
  · intro hk; exact f7 ((hasKey_eq_false us "title").mp hk)
  · intro hk; exact f8 ((hasKey_eq_false us "description").mp hk)
  · intro hk; exact f9 ((hasKey_eq_false us "topic").mp hk)
  · intro hk; exact f10 ((hasKey_eq_false us "body").mp hk)
  · intro hk; exact f11 ((hasKey_eq_false us "cron_expression").mp hk)
  · intro hk; exact f12 ((hasKey_eq_false us "priority").mp hk)
  · intro hk; exact f13 ((hasKey_eq_false us "status").mp hk)
  · intro hk; exact f14 ((hasKey_eq_false us "timezone").mp hk)
  · intro hk; exact f15 ((hasKey_eq_false us "tags").mp hk)
  · intro hk; exact f16 ((hasKey_eq_false us "attachments").mp hk)
  · intro hk; exact f17 ((hasKey_eq_false us "notes").mp hk)
  · intro hk; exact f18 ((hasKey_eq_false us "notification_sound").mp hk)
  · intro hk; exact f19 ((hasKey_eq_false us "category_id").mp hk)
  · intro hk hv
    exact f20 ((hasKey_eq_false us "completed_at").mp hk) hv
  · intro hk
    exact f21 ((hasKey_eq_false us "snoozed_until").mp hk) hk

/-- The C10 witness dictionary: one attribute entry, one non-attribute
entry. -/
def us0w : List Upd := [Upd.title "retitled", Upd.other "bogus"]

/-- The folded task of the C10 witness input. -/
def t1w : Task := { task0 with title := "retitled" }

/-- C10 amended witness: the amended theorem at the concrete one-task state
with a dictionary that retitles the task and carries one non-attribute
key. -/
theorem C10_amended_w :
    update_task cronOk state0 12 "a" (us0w.filter (fun x => !x.isOther))
        false =
      update_task cronOk state0 12 "a" us0w false ∧
    (update_task cronOk state0 12 "a" us0w false).result =
      Except.ok (some { t1w with modified_at := 12 }) ∧
    ({ t1w with modified_at := 12 } : Task).modified_at = 12 ∧
    t1w.id = task0.id ∧ t1w.created_at = task0.created_at ∧
    t1w.run_count = task0.run_count ∧ t1w.last_run = task0.last_run ∧
    t1w.notification_channels = task0.notification_channels ∧
    (hasKey us0w "title" = false → t1w.title = task0.title) ∧
    (hasKey us0w "description" = false →
      t1w.description = task0.description) ∧
    (hasKey us0w "topic" = false → t1w.topic = task0.topic) ∧
    (hasKey us0w "body" = false → t1w.body = task0.body) ∧
    (hasKey us0w "cron_expression" = false →
      t1w.cron_expression = task0.cron_expression) ∧
    (hasKey us0w "priority" = false → t1w.priority = task0.priority) ∧
    (hasKey us0w "status" = false → t1w.status = task0.status) ∧
    (hasKey us0w "timezone" = false → t1w.timezone = task0.timezone) ∧
    (hasKey us0w "tags" = false → t1w.tags = task0.tags) ∧
    (hasKey us0w "attachments" = false →
      t1w.attachments = task0.attachments) ∧
    (hasKey us0w "notes" = false → t1w.notes = task0.notes) ∧
    (hasKey us0w "notification_sound" = false →
      t1w.notification_sound = task0.notification_sound) ∧
    (hasKey us0w "category_id" = false →
      t1w.category_id = task0.category_id) ∧
    (hasKey us0w "completed_at" = false →
      (∀ v, Upd.status v ∈ us0w →
        parseStatus v ≠ some TaskStatus.completed) →
      t1w.completed_at = task0.completed_at) ∧
    (hasKey us0w "snoozed_until" = false →
      t1w.snoozed_until = task0.snoozed_until) :=
  C10_amended cronOk state0 12 "a" us0w false task0 t1w [] (by decide)
    (by decide) rfl

end TaskManager
